import Mathlib

/-!
Verification of the `wim` disk-image engine (src/lib/wim/engine.py) against its
natural-language specification.  The Python engine is shallowly embedded:

* disk images are byte sequences (`List Nat`, one `Nat` per byte);
* the sparse range copier (`wim.filemap.sparse_copy`, an external collaborator
  that is not part of the engine) is modelled from the spec as an overlay of a
  byte range at an offset — skipping all-zero regions is a physical
  optimisation with no logical effect on the resulting bytes;
* external tools (`parted`, `sfdisk`, `debugfs`, `mtools`, `blkid`, ...) are
  oracles: their textual outputs and the contents they produce are inputs of
  the model (`WriteEnv`, output traces), because the engine only orchestrates
  them and branches on their text;
* Python exceptions that escape the engine's own `WimError` taxonomy
  (`ValueError`, `KeyError`, `StopIteration`) are modelled as a separate error
  class `EngineErr.python`;
* Python string operations used by the engine (`startswith`, `in`,
  `str.index`, `str.split`) are re-implemented structurally on `List Char`
  with Python semantics.
-/

namespace Wim

/-! ## Python string primitives, structurally on `List Char` -/

/-- Python `s.startswith(pre)` on character lists (`List.isPrefixOf`). -/
def strStarts (s pre : String) : Bool :=
  pre.toList.isPrefixOf s.toList

/-- Occurrence of `needle` anywhere in `hay` (Python `needle in hay`). -/
def containsSub (hay needle : List Char) : Bool :=
  match hay with
  | [] => needle.isEmpty
  | _ :: t => needle.isPrefixOf hay || containsSub t needle

/-- Python `sub in s`. -/
def strContains (s sub : String) : Bool :=
  containsSub s.toList sub.toList

/-- Character index of the first occurrence of `needle` in `hay`, if any
(Python `hay.index(needle)`, which raises `ValueError` when absent). -/
def indexOfSub (hay needle : List Char) : Option Nat :=
  match hay with
  | [] => if needle = [] then some 0 else none
  | _ :: t =>
    if needle.isPrefixOf hay then some 0
    else (indexOfSub t needle).map (· + 1)

/-- Python `s.index(sub)` as an `Option` (none models the `ValueError`). -/
def strIndex (s sub : String) : Option Nat :=
  indexOfSub s.toList sub.toList

/-- Python `s.split(sep)` for a one-character separator: split on every
occurrence, keeping empty pieces. -/
def splitAll (sep : Char) : List Char → List (List Char)
  | [] => [[]]
  | c :: t =>
    if c = sep then [] :: splitAll sep t
    else
      match splitAll sep t with
      | [] => [[c]]
      | h :: r => (c :: h) :: r

/-- Python `s.split(sep, 1)` for a one-character separator: split at the
first occurrence only. -/
def splitOnceAt (sep : Char) : List Char → List (List Char)
  | [] => [[]]
  | c :: t =>
    if c = sep then [[], t]
    else
      match splitOnceAt sep t with
      | [] => [[c]]
      | h :: r => (c :: h) :: r

/-- Python `re.sub(r'\/\/+', '/', path)`: collapse every run of two or more
slashes into one slash. -/
def collapseSlashes : List Char → List Char
  | [] => []
  | [c] => [c]
  | c :: d :: rest =>
    if c = '/' ∧ d = '/' then collapseSlashes (d :: rest)
    else c :: collapseSlashes (d :: rest)

/-- The `abs_path` normalisation at the top of `Disk.remove_ext`. -/
def collapsePath (path : String) : String :=
  String.mk (collapseSlashes path.toList)

/-! ## Bytes and the sparse range copier -/

/-- Modelled from the spec: the sparse range copier (`sparse_copy`, a
collaborator outside the engine) copies the bytes of `src` into destination
`dst` starting at byte offset `seek`; regions of zeros are skipped only as a
physical optimisation, so the logical result is a plain overlay. -/
def sparseCopyTo (src : List Nat) (dst : Nat → Nat) (seek : Nat) : Nat → Nat :=
  fun a => if seek ≤ a ∧ a < seek + src.length then src.getD (a - seek) 0 else dst a

/-- Byte range `[start, start + len)` of an image
(`sparse_copy(..., skip=start, length=len)` into a fresh staging file). -/
def sliceBytes (img : List Nat) (start len : Nat) : List Nat :=
  (img.drop start).take len

/-! ## Errors

`WimFail` mirrors the distinct `raise WimError(...)` statements of the engine
that the claims talk about; `PyErr` models Python exceptions that are not
`WimError`s and therefore escape the engine's error taxonomy. -/

inductive PyErr where
  | valueError
  | keyError
  | stopIteration
deriving DecidableEq, Repr

inductive WimFail where
  /-- raise in `_get_part_image`: "Partition %s is not in the image". -/
  | partitionNotFound (pnum : Nat)
  /-- raise in `_get_part_image`: "Not supported fstype: ...". -/
  | unsupportedFstype (fstype : String)
  /-- raise in `Disk.write`: "Can't get size of unpartitioned space". -/
  | insufficientFreeSpace
  /-- raise in `remove_ext` for a `debugfs rmdir` output line containing
  "directory not empty"; its message ends "use -r to remove non-empty
  directory". -/
  | dirNotEmptyUseR (rmdirLine : String)
  /-- raise in `remove_ext` for a `debugfs rmdir` output line starting with
  "rmdir:". -/
  | rmdirFailed (rmLine : String) (rmdirLine : String)
  /-- raise in `remove_ext` for a `debugfs rm` output line that starts with
  "rm:" but does not report a directory: "Unable to remove ...". -/
  | removeFailed (rmLine : String) (path : String)
  /-- a delegated external tool exited nonzero (`exec_cmd` raising
  `WimError`), with its captured output. -/
  | toolFailure (msg : String)
deriving DecidableEq, Repr

inductive EngineErr where
  | wim : WimFail → EngineErr
  | python : PyErr → EngineErr
  /-- artifact of the embedding only: recursion fuel ran out. -/
  | fuel : EngineErr
deriving DecidableEq, Repr

/-! ## Partition table model (parted) and the partition image store -/

/-- One `parted -sm <image> unit B print` data line: partition number, start
offset (bytes), end offset (bytes), size (bytes), filesystem-type string. -/
structure PartedPart where
  pnum : Nat
  start : Nat
  stop : Nat
  size : Nat
  fstype : String
deriving DecidableEq, Repr

/-- The engine state `Disk.__init__` builds: the backing image's bytes, the
parsed partition table, the accepted filesystem-type prefixes, and the
logical sector size parsed from the parted metadata line. -/
structure Disk where
  image : List Nat
  partitions : List PartedPart
  fstypes : List String
  lsectorSize : Nat
deriving DecidableEq, Repr

/-- Default `fstypes` argument of `Disk.__init__`, used by `wim_ls`, `wim_cp`
and `wim_rm` (they construct `Disk` without an `fstypes` argument). -/
def defaultFstypes : List String := ["fat", "ext"]

/-- The `fstypes` tuple `wim_write` passes to `Disk`. -/
def wimWriteFstypes : List String := ["fat", "ext", "linux-swap"]

/-- The fstype acceptance loop of `_get_part_image`: `for fstype in
self.fstypes: if part.fstype.startswith(fstype): break / else: raise`. -/
def acceptedFs (fstypes : List String) (fstype : String) : Bool :=
  fstypes.any (fun fs => strStarts fstype fs)

/-- Whole image as a byte function (byte 0 for reads past the end). -/
def imageByte (d : Disk) : Nat → Nat :=
  fun a => d.image.getD a 0

/-- `Disk._get_part_image(pnum)`: fail if `pnum` is not a key of the parsed
table, fail if the partition's fstype does not start with an accepted
prefix, otherwise stage the partition's byte range `[start, start + size)`
into a temporary file and return its contents. -/
def Disk.get_part_image (d : Disk) (pnum : Nat) : Except EngineErr (List Nat) :=
  match d.partitions.find? (fun q => q.pnum = pnum) with
  | none => .error (.wim (.partitionNotFound pnum))
  | some part =>
    if acceptedFs d.fstypes part.fstype then
      .ok (sliceBytes d.image part.start part.size)
    else
      .error (.wim (.unsupportedFstype part.fstype))

/-- `Disk._put_part_image(pnum)`: flush the staging file's current bytes back
into the full image at the partition's start offset
(`sparse_copy(partimage, imagepath, seek=start)`). -/
def putPartImage (img : Nat → Nat) (start : Nat) (staged : List Nat) : Nat → Nat :=
  sparseCopyTo staged img start

/-! ## `Disk.remove_ext`

The engine drives `debugfs` and branches purely on the text the tool prints;
the tool outputs are therefore inputs of the model: `tr n` is the list of
output lines of the n-th external command the operation runs (the engine
splits each combined output with `splitlines`).  Recursion is bounded by
`fuel`; running out of fuel yields the embedding-only error `EngineErr.fuel`
(every theorem below supplies enough fuel for the runs it talks about).
Command-string construction (shell quoting, `rstrip('/')` on the rmdir
argument) is elided: the trace already fixes each command's output. -/

/-- Name extraction from one `debugfs ls -l` listing line:
`subdir.split(':')[1].split(" ", 1)[1]`.  Python raises `IndexError` on a
line with no colon or no space; such malformed lines are out of the modelled
scope and yield `""` here (the traces used below are well formed). -/
def entryName (line : String) : String :=
  String.mk (((splitOnceAt ' ' ((splitAll ':' line.toList).getD 1 [])).getD 1 []))

/-- Check of the `debugfs rmdir` output (the two raises at the end of the
directory branch of `remove_ext`): the first line containing "directory not
empty" raises the "use -r to remove non-empty directory" error, otherwise
the first line starting with "rmdir:" raises the generic rmdir failure. -/
def rmdirCheck (rmLine : String) (rmdirOut : List String) : Option EngineErr :=
  match rmdirOut with
  | [] => none
  | rl :: rest =>
    if strContains rl "directory not empty" then some (.wim (.dirNotEmptyUseR rl))
    else if strStarts rl "rmdir:" then some (.wim (.rmdirFailed rmLine rl))
    else rmdirCheck rmLine rest

mutual

/-- `Disk.remove_ext(pnum, path, recursive)` over a tool-output trace.
`idx` is the index of the next external command; the result is the index
after the run.  The body: normalise the path, run `debugfs rm`, then process
its output lines. -/
def remove_ext (tr : Nat → List String) (fuel idx : Nat) (path : String)
    (recursive : Bool) : Except EngineErr Nat :=
  match fuel with
  | 0 => .error .fuel
  | f + 1 => rmLines tr f (idx + 1) (collapsePath path) recursive (tr idx)

/-- The `for line in out.splitlines()` loop of `remove_ext`: lines not
starting with "rm:" are ignored; an "rm:" line reporting a directory enters
the directory branch, any other "rm:" line raises "Unable to remove". -/
def rmLines (tr : Nat → List String) (fuel idx : Nat) (absPath : String)
    (recursive : Bool) (lines : List String) : Except EngineErr Nat :=
  match fuel with
  | 0 => .error .fuel
  | f + 1 =>
    match lines with
    | [] => .ok idx
    | line :: rest =>
      if strStarts line "rm:" then
        if strContains line "file is a directory" then
          match dirCase tr f idx absPath recursive line with
          | .error e => .error e
          | .ok idx2 => rmLines tr f idx2 absPath recursive rest
        else .error (.wim (.removeFailed line absPath))
      else rmLines tr f idx absPath recursive rest

/-- The directory branch of `remove_ext`: when `recursive` was requested,
list the directory and recurse into its entries first; in every case then
run `debugfs rmdir` and check its output (so an empty directory is removed
even without the recursive flag, and the "use -r" raise is shared by the
recursive and non-recursive runs). -/
def dirCase (tr : Nat → List String) (fuel idx : Nat) (absPath : String)
    (recursive : Bool) (rmLine : String) : Except EngineErr Nat :=
  match fuel with
  | 0 => .error .fuel
  | f + 1 =>
    match (if recursive then recurseStep tr f idx absPath else .ok idx) with
    | .error e => .error e
    | .ok idx2 =>
      match rmdirCheck rmLine (tr idx2) with
      | some e => .error e
      | none => .ok (idx2 + 1)

/-- The recursive descent of `remove_ext`: run the listing (`self.dir`),
skip its first output line (`next(subdirs)` — a `StopIteration` escapes if
the listing is empty), then delete each entry other than `.` and `..`. -/
def recurseStep (tr : Nat → List String) (fuel idx : Nat) (absPath : String) :
    Except EngineErr Nat :=
  match fuel with
  | 0 => .error .fuel
  | f + 1 =>
    match tr idx with
    | [] => .error (.python .stopIteration)
    | _ :: entries => entsLoop tr f (idx + 1) absPath entries

/-- The `for subdir in subdirs` loop: parse each listing line's entry name
and recurse (the branch is only entered with `recursive` true, which is what
the code passes down). -/
def entsLoop (tr : Nat → List String) (fuel idx : Nat) (absPath : String)
    (entries : List String) : Except EngineErr Nat :=
  match fuel with
  | 0 => .error .fuel
  | f + 1 =>
    match entries with
    | [] => .ok idx
    | e :: rest =>
      let nm := entryName e
      if nm = "." ∨ nm = ".." then entsLoop tr f idx absPath rest
      else
        match remove_ext tr f idx (absPath ++ "/" ++ nm) true with
        | .error err => .error err
        | .ok idx2 => entsLoop tr f idx2 absPath rest

end

/-! ## `Disk.copy` and `Disk.remove` at the full-image level

The delegated tool mutates the staging file; its resulting contents are an
input (`stagedAfter`).  Each operation returns the full image's bytes after
the run together with the error, if any: on an error the engine raises
before `_put_part_image`, so the full image is returned unchanged. -/

/-- Result of the FAT delete tool attempts (`mdel` / `mdeltree`): `exec_cmd`
either succeeds or raises a `WimError` carrying the combined output. -/
inductive ToolRes where
  | ok
  | fail (msg : String)
deriving DecidableEq, Repr

/-- `Disk.copy(src, dest)`: stage the partition, let the delegated tool
mutate the staging file (contents afterwards: `stagedAfter`), then always
flush back with `_put_part_image`.  The partition dictionary is read first
(`self.partitions[pnum].fstype`), so a missing key is a Python `KeyError`. -/
def Disk.copyOp (d : Disk) (pnum : Nat) (stagedAfter : List Nat) :
    (Nat → Nat) × Option EngineErr :=
  match d.partitions.find? (fun q => q.pnum = pnum) with
  | none => (imageByte d, some (.python .keyError))
  | some p =>
    match d.get_part_image pnum with
    | .error e => (imageByte d, some e)
    | .ok _ => (putPartImage (imageByte d) p.start stagedAfter, none)

/-- `Disk.remove(pnum, path, recursive)`: stage the partition, dispatch on
the fstype (`ext` family to `remove_ext`, otherwise `mdel` with the
`mdeltree` fallback on a "not found" / "non empty" failure), then flush back
with `_put_part_image` — which is skipped when an error was raised. -/
def Disk.removeOp (d : Disk) (pnum : Nat) (tr : Nat → List String) (fuel : Nat)
    (path : String) (recursive : Bool) (mdelRes mdeltreeRes : ToolRes)
    (stagedAfter : List Nat) : (Nat → Nat) × Option EngineErr :=
  match d.get_part_image pnum with
  | .error e => (imageByte d, some e)
  | .ok _ =>
    match d.partitions.find? (fun q => q.pnum = pnum) with
    | none => (imageByte d, some (.python .keyError))
    | some p =>
      if strStarts p.fstype "ext" then
        match remove_ext tr fuel 0 path recursive with
        | .error e => (imageByte d, some e)
        | .ok _ => (putPartImage (imageByte d) p.start stagedAfter, none)
      else
        match mdelRes with
        | .ok => (putPartImage (imageByte d) p.start stagedAfter, none)
        | .fail msg =>
          if strContains msg "not found" || strContains msg "non empty" then
            match mdeltreeRes with
            | .ok => (putPartImage (imageByte d) p.start stagedAfter, none)
            | .fail m => (imageByte d, some (.wim (.toolFailure m)))
          else (imageByte d, some (.wim (.toolFailure msg)))

/-! ## `Disk.write`: structured table document and sfdisk script -/

/-- One partition entry of the structured table document (`sfdisk -J`
output): optional attributes / name / uuid strings, start and size in
logical sectors, type tag, bootable flag.  `size` is an `Int` because the
expand arithmetic below follows Python's unbounded signed integers. -/
structure SfdiskPart where
  attrs : Option String := none
  name : Option String := none
  start : Nat := 0
  size : Int := 0
  type : String := ""
  uuid : Option String := none
  bootable : Bool := false
deriving DecidableEq, Repr

/-- The `partitiontable` object: scalar metadata fields (as key/value pairs)
plus the ordered partition list. -/
structure SfdiskDoc where
  fields : List (String × String) := []
  partitions : List SfdiskPart := []
deriving DecidableEq, Repr

/-- Python truthiness of an optional string (`if val:`). -/
def truthyStr : Option String → Option String
  | some s => if s = "" then none else some s
  | none => none

/-- One field of a partition line of the sfdisk script: `part.get(name)`
followed by the `if val:` truthiness test (`0`, `''` and a missing value are
all falsy and omitted). -/
def partFieldVal (p : SfdiskPart) (n : String) : Option String :=
  if n = "attrs" then truthyStr p.attrs
  else if n = "name" then truthyStr p.name
  else if n = "size" then (if p.size = 0 then none else some (toString p.size))
  else if n = "type" then (if p.type = "" then none else some p.type)
  else if n = "uuid" then truthyStr p.uuid
  else none

/-- The fields rendered for one partition line of `write_sfdisk_script`, in
order: `for name in ('attrs', 'name', 'size', 'type', 'uuid')`, where `size`
is skipped for an extended partition (`part['type'] == 'f'`). -/
def scriptPartFields (p : SfdiskPart) : List (String × String) :=
  ["attrs", "name", "size", "type", "uuid"].filterMap (fun n =>
    if n = "size" ∧ p.type = "f" then none
    else (partFieldVal p n).map (fun v => (n, v)))

/-- One serialized partition line: its `name=value` fields and whether the
trailing `,bootable` marker is appended. -/
structure ScriptLine where
  fields : List (String × String)
  bootable : Bool
deriving DecidableEq, Repr

/-- A serialized sfdisk script: header `key: value` lines, then one line per
partition. -/
structure SfdiskScript where
  header : List (String × String)
  lines : List ScriptLine
deriving DecidableEq, Repr

/-- The header loop of `write_sfdisk_script`: skip the `partitions`,
`device`, `firstlba` and `lastlba` keys and rename `id` to `label-id`. -/
def scriptHeader (fields : List (String × String)) : List (String × String) :=
  fields.filterMap (fun kv =>
    if kv.1 = "partitions" ∨ kv.1 = "device" ∨ kv.1 = "firstlba" ∨ kv.1 = "lastlba" then none
    else if kv.1 = "id" then some ("label-id", kv.2)
    else some kv)

/-- `write_sfdisk_script(outf, parts)` as a pure serialization. -/
def write_sfdisk_script (doc : SfdiskDoc) : SfdiskScript :=
  { header := scriptHeader doc.fields
    lines := doc.partitions.map (fun p =>
      { fields := scriptPartFields p, bootable := p.bootable }) }

/-! ## `Disk.write`: free space, expand plan, distribution -/

/-- The `sfdisk -F` parsing loop.  Each element of `lines` abstracts one
output line: `some n` when the line starts with "Unpartitioned space " and
ends with "sectors" and its second-to-last token parses as the sector count
`n`, `none` for any other line.  Every matching line overwrites `free` with
its figure rounded down to a 2048-sector boundary (`free - free % 2048`). -/
def parseFree (lines : List (Option Nat)) : Option Nat :=
  lines.foldl
    (fun acc l =>
      match l with
      | some n => some (n - n % 2048)
      | none => acc)
    none

/-- The first expand loop of `Disk.write` ("calculate expanded partitions
sizes"), over the document partitions enumerated from 1.  State: the free
pool (Python int), the `sizes` dictionary (as an association list; keys are
distinct so ordering is irrelevant) and `num_auto_resize`.  An explicit
nonzero plan entry is converted from bytes to sectors, charged against the
pool and written into the partition; a zero entry does nothing; a partition
without an entry whose type is not `'f'` is marked `-1` (auto-resize). -/
structure PlanOut where
  parts : List SfdiskPart
  free : Int
  sizes : List (Nat × Int)
  numAuto : Nat
deriving DecidableEq, Repr

def planLoop (lsec : Nat) (plan : List (Nat × Nat)) :
    Nat → List SfdiskPart → Int → List (Nat × Int) → Nat → PlanOut
  | _, [], free, sizes, numAuto => ⟨[], free, sizes, numAuto⟩
  | num, p :: rest, free, sizes, numAuto =>
    match List.lookup num plan with
    | some v =>
      if v ≠ 0 then
        let sectors : Int := ((v / lsec : Nat) : Int)
        let out := planLoop lsec plan (num + 1) rest (free - (sectors - p.size))
          ((num, sectors) :: sizes) numAuto
        { out with parts := { p with size := sectors } :: out.parts }
      else
        let out := planLoop lsec plan (num + 1) rest free sizes numAuto
        { out with parts := p :: out.parts }
    | none =>
      if p.type ≠ "f" then
        let out := planLoop lsec plan (num + 1) rest free ((num, (-1 : Int)) :: sizes)
          (numAuto + 1)
        { out with parts := p :: out.parts }
      else
        let out := planLoop lsec plan (num + 1) rest free sizes numAuto
        { out with parts := p :: out.parts }

/-- The second expand loop of `Disk.write`: every partition whose `sizes`
entry is `-1` grows by `free // num_auto_resize` (Python floor division,
`Int.fdiv`). -/
def distributeLoop (free : Int) (numAuto : Nat) (sizes : List (Nat × Int)) :
    Nat → List SfdiskPart → List SfdiskPart
  | _, [] => []
  | num, p :: rest =>
    (if List.lookup num sizes = some (-1) then
      { p with size := p.size + Int.fdiv free (numAuto : Int) }
    else p) :: distributeLoop free numAuto sizes (num + 1) rest

/-! ## `Disk.write`: the partition-content copy loop -/

/-- Oracle inputs of one `Disk.write` run: the structured document `sfdisk
-J` reports for the source, the `sfdisk -F` free-space lines for the target,
the document re-read from the target after the second table write (the
authoritative layout for the copy loop), and the bytes the delegated
resize / rebuild tools produce (`resize2fs` result, fresh FAT image with
files copied back, fresh `mkswap` area built with the given `-L` / `-U`
argument strings), plus the `blkid --probe` output per partition. -/
structure WriteEnv where
  sourceDoc : SfdiskDoc
  freeLines : List (Option Nat)
  finalDoc : SfdiskDoc
  extResize : Nat → List Nat → Int → List Nat
  fatRebuild : Nat → List Nat → Option String → Int → List Nat
  blkidOut : Nat → String
  mkswapBytes : Nat → String → String → List Nat

/-- An effect on the target: a sparse byte copy at a seek offset, or an
application of a serialized table script through the table writer. -/
inductive Action where
  | copyBytes (seek : Nat) (bytes : List Nat)
  | writeTable (script : SfdiskScript)
deriving DecidableEq, Repr

/-- Byte-level effect of an action on the target (a table write changes the
table through sfdisk, outside the byte ranges the engine itself copies). -/
def applyAction (t : Nat → Nat) : Action → (Nat → Nat)
  | .copyBytes seek bytes => sparseCopyTo bytes t seek
  | .writeTable _ => t

def applyActions (t : Nat → Nat) (as : List Action) : Nat → Nat :=
  as.foldl applyAction t

/-- The fstype test of the resize branch: `fstype.startswith('ext') or
fstype.startswith('fat') or fstype.startswith('linux-swap')`. -/
def resizableFs (fstype : String) : Bool :=
  strStarts fstype "ext" || strStarts fstype "fat" || strStarts fstype "linux-swap"

/-- Result of the copy loop: the target actions performed before any raise,
the partitions skipped with a warning, and the raise, if one occurred. -/
structure CopyOut where
  actions : List Action
  warned : List Nat
  err : Option EngineErr
deriving DecidableEq, Repr

/-- The swap re-creation branch: probe the staged original with `blkid`,
extract the UUID by slicing around `out.index('UUID="')` — Python raises
`ValueError` when the marker is absent — and build a fresh swap area of the
new size with the label and UUID argument strings. -/
def swapBranch (env : WriteEnv) (num : Nat) (p : SfdiskPart) : Except EngineErr (List Nat) :=
  let labelStr := match truthyStr p.name with
    | some l => "-L " ++ l
    | none => ""
  let out := env.blkidOut num
  match strIndex out "UUID=\"" with
  | none => .error (.python .valueError)
  | some i =>
    let uuid := String.mk ((out.toList.drop (i + 6)).take 36)
    let uuidStr := if uuid = "" then "" else "-U " ++ uuid
    .ok (env.mkswapBytes num labelStr uuidStr)

/-- The resize / re-create dispatch of the copy loop (`elif` chain on the
parted fstype): ext partitions are checked and resized in place by the
delegated tools, fat partitions are rebuilt at the new size with the
document's name as volume label, linux-swap partitions go through
`swapBranch`; each first stages the original partition. -/
def resizeBranch (d : Disk) (env : WriteEnv) (num : Nat) (pp : PartedPart)
    (p : SfdiskPart) : Except EngineErr (List Nat) :=
  if strStarts pp.fstype "ext" then
    (d.get_part_image num).map (fun staged => env.extResize num staged p.size)
  else if strStarts pp.fstype "fat" then
    (d.get_part_image num).map (fun staged =>
      env.fatRebuild num staged (truthyStr p.name) p.size)
  else
    match d.get_part_image num with
    | .error e => .error e
    | .ok _ => swapBranch env num p

/-- The "copy partitions content" loop of `Disk.write`, over the re-read
target document enumerated from 1.  `self.partitions[pnum]` is a dictionary
access (`KeyError` when absent).  A partition whose re-read size equals the
parted size in sectors is staged and bulk-copied verbatim to its new start;
otherwise ext / fat / linux-swap partitions are rebuilt at the new size and
copied, and any other non-container type is skipped with a warning. -/
def copyLoop (d : Disk) (env : WriteEnv) : Nat → List SfdiskPart → CopyOut
  | _, [] => ⟨[], [], none⟩
  | num, p :: rest =>
    match d.partitions.find? (fun q => q.pnum = num) with
    | none => ⟨[], [], some (.python .keyError)⟩
    | some pp =>
      let lsec := d.lsectorSize
      if p.size = ((pp.size / lsec : Nat) : Int) then
        match d.get_part_image num with
        | .error e => ⟨[], [], some e⟩
        | .ok staged =>
          let out := copyLoop d env (num + 1) rest
          ⟨.copyBytes (p.start * lsec) staged :: out.actions, out.warned, out.err⟩
      else if resizableFs pp.fstype then
        match resizeBranch d env num pp p with
        | .error e => ⟨[], [], some e⟩
        | .ok bytes =>
          let out := copyLoop d env (num + 1) rest
          ⟨.copyBytes (p.start * lsec) bytes :: out.actions, out.warned, out.err⟩
      else if p.type ≠ "f" then
        let out := copyLoop d env (num + 1) rest
        ⟨out.actions, num :: out.warned, out.err⟩
      else copyLoop d env (num + 1) rest

/-- Result of a whole `Disk.write` run. -/
structure WriteRes where
  actions : List Action
  warned : List Nat
  err : Option EngineErr
deriving DecidableEq, Repr

/-- `Disk.write(target, expand)`.  With `expand = None` the source image is
sparse-copied to the target verbatim and nothing else happens.  Otherwise:
copy the first 2048 logical sectors, apply the source table to the target,
query and align the target's unpartitioned space (raising when no usable
figure was produced), run the two expand loops, apply the resized table,
and run the copy loop over the document re-read from the target. -/
def Disk.write (d : Disk) (env : WriteEnv) (expand : Option (List (Nat × Nat))) : WriteRes :=
  match expand with
  | none => ⟨[.copyBytes 0 d.image], [], none⟩
  | some plan =>
    let lsec := d.lsectorSize
    let boot := Action.copyBytes 0 (d.image.take (2048 * lsec))
    let t1 := Action.writeTable (write_sfdisk_script env.sourceDoc)
    match parseFree env.freeLines with
    | none => ⟨[boot, t1], [], some (.wim .insufficientFreeSpace)⟩
    | some free =>
      let out := planLoop lsec plan 1 env.sourceDoc.partitions free [] 0
      let ps2 := distributeLoop out.free out.numAuto out.sizes 1 out.parts
      let t2 := Action.writeTable (write_sfdisk_script { env.sourceDoc with partitions := ps2 })
      let c := copyLoop d env 1 env.finalDoc.partitions
      ⟨[boot, t1, t2] ++ c.actions, c.warned, c.err⟩

/-! ## Reference characterisations used by the theorems -/

/-- The figure carried by the last matching `sfdisk -F` line (the queried
unpartitioned-space sector count the loop ends up using). -/
def lastFigure : List (Option Nat) → Option Nat
  | [] => none
  | some n :: rest =>
    match lastFigure rest with
    | some m => some m
    | none => some n
  | none :: rest => lastFigure rest

/-- Stated from the spec's step 5: the free pool after the plan loop is the
initial pool minus, for each partition with a nonzero explicit plan entry,
the delta between its new size in sectors and its old size; zero entries
and auto-marked partitions leave the pool untouched. -/
def specPoolAfter (lsec : Nat) (plan : List (Nat × Nat)) :
    Nat → List SfdiskPart → Int → Int
  | _, [], free => free
  | num, p :: rest, free =>
    specPoolAfter lsec plan (num + 1) rest
      (match List.lookup num plan with
       | some v => if v ≠ 0 then free - (((v / lsec : Nat) : Int) - p.size) else free
       | none => free)

/-- Stated from the spec's step 5: the number of auto-resize partitions is
the number of partitions without a plan entry whose type is not the table
container tag. -/
def specAutoCount (plan : List (Nat × Nat)) : Nat → List SfdiskPart → Nat
  | _, [] => 0
  | num, p :: rest =>
    (if List.lookup num plan = none ∧ p.type ≠ "f" then 1 else 0) +
      specAutoCount plan (num + 1) rest

/-! ## Concrete fixtures used by witnesses and counterexamples -/

/-- A trivial tool environment (every resize tool is the identity). -/
def envTriv : WriteEnv :=
  ⟨⟨[], []⟩, [], ⟨[], []⟩, fun _ s _ => s, fun _ s _ _ => s, fun _ => "", fun _ _ _ => []⟩

/-- An image whose single partition carries a filesystem the engine does not
support (`btrfs`), staged with the `wim_write` accepted set. -/
def dBtrfs : Disk :=
  ⟨[0, 1, 2, 3, 4, 5, 6, 7], [⟨1, 4, 7, 4, "btrfs"⟩], ["fat", "ext", "linux-swap"], 1⟩

/-- Environment for `dBtrfs`: the re-read target table reports the partition
unchanged (4 sectors at start 4, sector size 1). -/
def envBtrfs : WriteEnv :=
  ⟨⟨[], []⟩, [some 0], ⟨[], [⟨none, none, 4, 4, "83", none, false⟩]⟩,
    fun _ s _ => s, fun _ s _ _ => s, fun _ => "", fun _ _ _ => []⟩

/-- An image with one unchanged ext partition (bytes 9 8 7 6; the partition
covers bytes 2..3). -/
def dExtOk : Disk :=
  ⟨[9, 8, 7, 6], [⟨1, 2, 3, 2, "ext4"⟩], ["fat", "ext", "linux-swap"], 1⟩

/-- Environment for `dExtOk`: target table reports the partition unchanged
at start 2. -/
def envExtOk : WriteEnv :=
  ⟨⟨[], []⟩, [some 0], ⟨[], [⟨none, none, 2, 2, "83", none, false⟩]⟩,
    fun _ s _ => s, fun _ s _ _ => s, fun _ => "", fun _ _ _ => []⟩

/-- Two plain Linux partitions used by the distribution witnesses. -/
def p83a : SfdiskPart := ⟨none, none, 0, 10, "83", none, false⟩

def p83b : SfdiskPart := ⟨none, none, 0, 20, "83", none, false⟩

/-- Partitions exercising the three plan rules: an explicit entry, a zero
entry, an auto candidate, and a container entry. -/
def pExp : SfdiskPart := ⟨none, none, 0, 5, "83", none, false⟩

def pZero : SfdiskPart := ⟨none, none, 0, 6, "83", none, false⟩

def pAuto : SfdiskPart := ⟨none, none, 0, 7, "83", none, false⟩

def pCont : SfdiskPart := ⟨none, none, 0, 8, "f", none, false⟩

/-- A document holding a single extended (container) partition entry. -/
def docCont : SfdiskDoc := ⟨[("id", "0xdeadbeef")], [pCont]⟩

/-- A disk whose single partition is a swap area, staged with the default
accepted set that the file operations (`wim_ls` / `wim_cp` / `wim_rm`)
construct `Disk` with. -/
def dSwapDefault : Disk := ⟨[0, 0, 0, 0], [⟨1, 0, 3, 4, "linux-swap(v1)"⟩], defaultFstypes, 512⟩

/-- A disk whose single partition carries `btrfs` (recognised by the table
parser), staged with the default accepted set. -/
def dBtrfsDefault : Disk := ⟨[0, 0, 0, 0], [⟨1, 0, 3, 4, "btrfs"⟩], defaultFstypes, 512⟩

/-- An ext disk used by the remove scenarios. -/
def dExtRm : Disk := ⟨[1, 2, 3, 4], [⟨1, 0, 3, 4, "ext4"⟩], ["fat", "ext"], 512⟩

/-- Tool trace of a non-recursive remove of a non-empty directory:
`debugfs rm` reports a directory, `debugfs rmdir` reports not empty. -/
def trScenA : Nat → List String :=
  fun i => [["rm: file is a directory"], ["rmdir: directory not empty"]].getD i []

/-- Tool trace of a recursive remove whose recursion succeeds (one entry
`a`, removed without complaint) but whose final `debugfs rmdir` still
reports the directory as not empty. -/
def trScenB : Nat → List String :=
  fun i =>
    [["rm: file is a directory"], ["hdr", "x:y a"], [], ["rmdir: directory not empty"]].getD i []

/-- An image whose single partition is a linux-swap area resized by the
plan, staged with the `wim_write` accepted set (sector size 1; partition
bytes 0..3). -/
def dSwapResize : Disk :=
  ⟨[1, 2, 3, 4, 5, 6, 7, 8], [⟨1, 0, 3, 4, "linux-swap(v1)"⟩], wimWriteFstypes, 1⟩

/-- Environment for `dSwapResize` whose `blkid --probe` output carries no
volume UUID. -/
def envSwapNoUuid : WriteEnv :=
  ⟨⟨[], []⟩, [some 0], ⟨[], [⟨none, none, 4, 8, "82", none, false⟩]⟩,
    fun _ s _ => s, fun _ s _ _ => s, fun _ => "/tmp/p1: TYPE=\"swap\"", fun _ _ _ => []⟩

/-- The same run with a probe output that does carry a UUID. -/
def envSwapUuid : WriteEnv :=
  ⟨⟨[], []⟩, [some 0], ⟨[], [⟨none, none, 4, 8, "82", none, false⟩]⟩,
    fun _ s _ => s, fun _ s _ _ => s,
    fun _ => "/tmp/p1: UUID=\"abcdefab-1234-5678-9abc-def012345678\" TYPE=\"swap\"",
    fun _ _ _ => []⟩

/-! ## Lemmas about the expand loops -/

theorem planLoop_parts_get (lsec : Nat) (plan : List (Nat × Nat)) :
    ∀ (parts : List SfdiskPart) (k : Nat) (free : Int) (sizes : List (Nat × Int))
      (na i : Nat),
    (planLoop lsec plan k parts free sizes na).parts[i]? =
      (parts[i]?).map (fun p =>
        match List.lookup (k + i) plan with
        | some v => if v ≠ 0 then { p with size := ((v / lsec : Nat) : Int) } else p
        | none => p) := by
  intro parts
  induction parts with
  | nil => intro k free sizes na i; simp [planLoop]
  | cons p rest ih =>
    intro k free sizes na i
    cases hv : List.lookup k plan with
    | some v =>
      by_cases hv0 : v ≠ 0
      · cases i with
        | zero => simp [planLoop, hv, hv0]
        | succ j =>
          have harith : k + (j + 1) = (k + 1) + j := by omega
          simp only [planLoop, hv, if_pos hv0, List.getElem?_cons_succ, harith]
          exact ih (k + 1) _ _ _ j
      · cases i with
        | zero => simp [planLoop, hv, hv0]
        | succ j =>
          have harith : k + (j + 1) = (k + 1) + j := by omega
          simp only [planLoop, hv, if_neg hv0, List.getElem?_cons_succ, harith]
          exact ih (k + 1) _ _ _ j
    | none =>
      by_cases ht : p.type ≠ "f"
      · cases i with
        | zero => simp [planLoop, hv, ht]
        | succ j =>
          have harith : k + (j + 1) = (k + 1) + j := by omega
          simp only [planLoop, hv, if_pos ht, List.getElem?_cons_succ, harith]
          exact ih (k + 1) _ _ _ j
      · cases i with
        | zero => simp [planLoop, hv, ht]
        | succ j =>
          have harith : k + (j + 1) = (k + 1) + j := by omega
          simp only [planLoop, hv, if_neg ht, List.getElem?_cons_succ, harith]
          exact ih (k + 1) _ _ _ j

theorem planLoop_sizes_lt (lsec : Nat) (plan : List (Nat × Nat)) :
    ∀ (parts : List SfdiskPart) (k : Nat) (free : Int) (sizes : List (Nat × Int))
      (na num : Nat), num < k →
    List.lookup num (planLoop lsec plan k parts free sizes na).sizes =
      List.lookup num sizes := by
  intro parts
  induction parts with
  | nil => intro k free sizes na num h; simp [planLoop]
  | cons p rest ih =>
    intro k free sizes na num h
    have hne : (num == k) = false := by simp; omega
    cases hv : List.lookup k plan with
    | some v =>
      by_cases hv0 : v ≠ 0
      · simp only [planLoop, hv, if_pos hv0]
        rw [ih (k + 1) _ _ _ num (by omega)]
        simp [List.lookup, hne]
      · simp only [planLoop, hv, if_neg hv0]
        exact ih (k + 1) _ _ _ num (by omega)
    | none =>
      by_cases ht : p.type ≠ "f"
      · simp only [planLoop, hv, if_pos ht]
        rw [ih (k + 1) _ _ _ num (by omega)]
        simp [List.lookup, hne]
      · simp only [planLoop, hv, if_neg ht]
        exact ih (k + 1) _ _ _ num (by omega)

theorem planLoop_sizes_ge (lsec : Nat) (plan : List (Nat × Nat)) :
    ∀ (parts : List SfdiskPart) (k : Nat) (free : Int) (sizes : List (Nat × Int))
      (na num : Nat), k + parts.length ≤ num →
    List.lookup num (planLoop lsec plan k parts free sizes na).sizes =
      List.lookup num sizes := by
  intro parts
  induction parts with
  | nil => intro k free sizes na num h; simp [planLoop]
  | cons p rest ih =>
    intro k free sizes na num h
    have hne : (num == k) = false := by simp; simp at h; omega
    have hrec : (k + 1) + rest.length ≤ num := by simp at h; omega
    cases hv : List.lookup k plan with
    | some v =>
      by_cases hv0 : v ≠ 0
      · simp only [planLoop, hv, if_pos hv0]
        rw [ih (k + 1) _ _ _ num hrec]
        simp [List.lookup, hne]
      · simp only [planLoop, hv, if_neg hv0]
        exact ih (k + 1) _ _ _ num hrec
    | none =>
      by_cases ht : p.type ≠ "f"
      · simp only [planLoop, hv, if_pos ht]
        rw [ih (k + 1) _ _ _ num hrec]
        simp [List.lookup, hne]
      · simp only [planLoop, hv, if_neg ht]
        exact ih (k + 1) _ _ _ num hrec

theorem planLoop_sizes_get (lsec : Nat) (plan : List (Nat × Nat)) :
    ∀ (parts : List SfdiskPart) (k : Nat) (free : Int) (sizes : List (Nat × Int))
      (na i : Nat) (p : SfdiskPart), parts[i]? = some p →
    List.lookup (k + i) (planLoop lsec plan k parts free sizes na).sizes =
      (match List.lookup (k + i) plan with
       | some v =>
         if v ≠ 0 then some ((v / lsec : Nat) : Int) else List.lookup (k + i) sizes
       | none =>
         if p.type ≠ "f" then some (-1) else List.lookup (k + i) sizes) := by
  intro parts
  induction parts with
  | nil => intro k free sizes na i p h; simp at h
  | cons q rest ih =>
    intro k free sizes na i p h
    cases i with
    | zero =>
      simp only [List.getElem?_cons_zero, Option.some.injEq] at h
      subst h
      cases hv : List.lookup k plan with
      | some v =>
        by_cases hv0 : v ≠ 0
        · simp only [planLoop, hv, if_pos hv0, Nat.add_zero]
          rw [planLoop_sizes_lt lsec plan rest (k + 1) _ _ _ k (by omega)]
          simp [List.lookup, hv, hv0]
        · simp only [planLoop, hv, if_neg hv0, Nat.add_zero]
          rw [planLoop_sizes_lt lsec plan rest (k + 1) _ _ _ k (by omega)]
          try simp [hv, hv0]
      | none =>
        by_cases ht : q.type ≠ "f"
        · simp only [planLoop, hv, if_pos ht, Nat.add_zero]
          rw [planLoop_sizes_lt lsec plan rest (k + 1) _ _ _ k (by omega)]
          try simp [List.lookup, hv, ht]
        · simp only [planLoop, hv, if_neg ht, Nat.add_zero]
          rw [planLoop_sizes_lt lsec plan rest (k + 1) _ _ _ k (by omega)]
          try simp [hv, ht]
    | succ j =>
      simp only [List.getElem?_cons_succ] at h
      have harith : k + (j + 1) = (k + 1) + j := by omega
      have hne : ((k + 1) + j == k) = false := by simp; omega
      cases hv : List.lookup k plan with
      | some v =>
        by_cases hv0 : v ≠ 0
        · simp only [planLoop, hv, if_pos hv0, harith]
          rw [ih (k + 1) _ _ _ j p h]
          simp [List.lookup, hne]
        · simp only [planLoop, hv, if_neg hv0, harith]
          exact ih (k + 1) _ _ _ j p h
      | none =>
        by_cases ht : q.type ≠ "f"
        · simp only [planLoop, hv, if_pos ht, harith]
          rw [ih (k + 1) _ _ _ j p h]
          simp [List.lookup, hne]
        · simp only [planLoop, hv, if_neg ht, harith]
          exact ih (k + 1) _ _ _ j p h

theorem planLoop_numAuto (lsec : Nat) (plan : List (Nat × Nat)) :
    ∀ (parts : List SfdiskPart) (k : Nat) (free : Int) (sizes : List (Nat × Int))
      (na : Nat),
    (planLoop lsec plan k parts free sizes na).numAuto =
      na + specAutoCount plan k parts := by
  intro parts
  induction parts with
  | nil => intro k free sizes na; simp [planLoop, specAutoCount]
  | cons p rest ih =>
    intro k free sizes na
    cases hv : List.lookup k plan with
    | some v =>
      by_cases hv0 : v ≠ 0
      · simp only [planLoop, hv, if_pos hv0, specAutoCount]
        rw [ih]
        simp [hv]
      · simp only [planLoop, hv, if_neg hv0, specAutoCount]
        rw [ih]
        simp [hv]
    | none =>
      by_cases ht : p.type ≠ "f"
      · simp only [planLoop, hv, if_pos ht, specAutoCount]
        rw [ih]
        simp [hv, ht]
        try omega
      · simp only [planLoop, hv, if_neg ht, specAutoCount]
        rw [ih]
        simp [hv, ht]

theorem planLoop_free (lsec : Nat) (plan : List (Nat × Nat)) :
    ∀ (parts : List SfdiskPart) (k : Nat) (free : Int) (sizes : List (Nat × Int))
      (na : Nat),
    (planLoop lsec plan k parts free sizes na).free =
      specPoolAfter lsec plan k parts free := by
  intro parts
  induction parts with
  | nil => intro k free sizes na; simp [planLoop, specPoolAfter]
  | cons p rest ih =>
    intro k free sizes na
    cases hv : List.lookup k plan with
    | some v =>
      by_cases hv0 : v ≠ 0
      · simp only [planLoop, hv, if_pos hv0, specPoolAfter]
        rw [ih]
      · simp only [planLoop, hv, if_neg hv0, specPoolAfter]
        rw [ih]
        try simp [hv0]
    | none =>
      by_cases ht : p.type ≠ "f"
      · simp only [planLoop, hv, if_pos ht, specPoolAfter]
        rw [ih]
      · simp only [planLoop, hv, if_neg ht, specPoolAfter]
        rw [ih]

theorem specAutoCount_pos (plan : List (Nat × Nat)) :
    ∀ (parts : List SfdiskPart) (k i : Nat) (p : SfdiskPart), parts[i]? = some p →
    List.lookup (k + i) plan = none → p.type ≠ "f" →
    0 < specAutoCount plan k parts := by
  intro parts
  induction parts with
  | nil => intro k i p h _ _; simp at h
  | cons q rest ih =>
    intro k i p h hplan htype
    cases i with
    | zero =>
      simp only [List.getElem?_cons_zero, Option.some.injEq] at h
      subst h
      simp only [Nat.add_zero] at hplan
      simp [specAutoCount, hplan, htype]
    | succ j =>
      simp only [List.getElem?_cons_succ] at h
      have harith : k + (j + 1) = (k + 1) + j := by omega
      rw [harith] at hplan
      have := ih (k + 1) j p h hplan htype
      simp [specAutoCount]
      omega

theorem distributeLoop_get (free : Int) (na : Nat) (sizes : List (Nat × Int)) :
    ∀ (ps : List SfdiskPart) (k i : Nat),
    (distributeLoop free na sizes k ps)[i]? =
      (ps[i]?).map (fun p =>
        if List.lookup (k + i) sizes = some (-1) then
          { p with size := p.size + Int.fdiv free (na : Int) }
        else p) := by
  intro ps
  induction ps with
  | nil => intro k i; simp [distributeLoop]
  | cons p rest ih =>
    intro k i
    cases i with
    | zero => simp [distributeLoop]
    | succ j =>
      have harith : k + (j + 1) = (k + 1) + j := by omega
      simp only [distributeLoop, List.getElem?_cons_succ, harith]
      exact ih (k + 1) j

theorem parseFree_foldl (lines : List (Option Nat)) :
    ∀ acc : Option Nat,
    lines.foldl
        (fun acc l =>
          match l with
          | some n => some (n - n % 2048)
          | none => acc)
        acc =
      (match lastFigure lines with
       | some n => some (n - n % 2048)
       | none => acc) := by
  induction lines with
  | nil => intro acc; simp [lastFigure]
  | cons l rest ih =>
    intro acc
    cases l with
    | some n =>
      simp only [List.foldl_cons, lastFigure]
      rw [ih]
      cases lastFigure rest <;> simp
    | none =>
      simp only [List.foldl_cons, lastFigure]
      exact ih acc

theorem parseFree_eq (lines : List (Option Nat)) :
    parseFree lines = (lastFigure lines).map (fun n => n - n % 2048) := by
  unfold parseFree
  rw [parseFree_foldl]
  cases lastFigure lines <;> simp

/-! ## Lemmas about the copy loop -/

theorem get_part_image_not_free (d : Disk) (pnum : Nat) (e : EngineErr) :
    d.get_part_image pnum = .error e → e ≠ EngineErr.wim WimFail.insufficientFreeSpace := by
  intro h
  unfold Disk.get_part_image at h
  split at h
  · simp only [Except.error.injEq] at h
    subst h
    simp
  · split at h
    · simp at h
    · simp only [Except.error.injEq] at h
      subst h
      simp

theorem swapBranch_err (env : WriteEnv) (num : Nat) (p : SfdiskPart) (e : EngineErr) :
    swapBranch env num p = .error e → e = EngineErr.python PyErr.valueError := by
  intro h
  unfold swapBranch at h
  cases hi : strIndex (env.blkidOut num) "UUID=\"" <;> simp_all

theorem resizeBranch_not_free (d : Disk) (env : WriteEnv) (num : Nat)
    (pp : PartedPart) (p : SfdiskPart) (e : EngineErr) :
    resizeBranch d env num pp p = .error e →
    e ≠ EngineErr.wim WimFail.insufficientFreeSpace := by
  intro h
  unfold resizeBranch at h
  split at h
  · cases hg : d.get_part_image num with
    | error e2 =>
      rw [hg] at h
      simp only [Except.map, Except.error.injEq] at h
      subst h
      exact get_part_image_not_free d num _ hg
    | ok staged => rw [hg] at h; simp [Except.map] at h
  · split at h
    · cases hg : d.get_part_image num with
      | error e2 =>
        rw [hg] at h
        simp only [Except.map, Except.error.injEq] at h
        subst h
        exact get_part_image_not_free d num _ hg
      | ok staged => rw [hg] at h; simp [Except.map] at h
    · split at h
      · simp only [Except.error.injEq] at h
        subst h
        exact get_part_image_not_free d num _ (by assumption)
      · rw [swapBranch_err env num p e h]
        simp

theorem copyLoop_err_ne_free (d : Disk) (env : WriteEnv) :
    ∀ (parts : List SfdiskPart) (num : Nat),
    (copyLoop d env num parts).err ≠ some (EngineErr.wim WimFail.insufficientFreeSpace) := by
  intro parts
  induction parts with
  | nil => intro num; simp [copyLoop]
  | cons p rest ih =>
    intro num
    simp only [copyLoop]
    split
    · simp
    · split
      · split
        · rename_i e he
          intro hc
          exact get_part_image_not_free d num e he (Option.some.inj hc)
        · exact ih (num + 1)
      · split
        · split
          · rename_i e he
            intro hc
            exact resizeBranch_not_free d env num _ p e he (Option.some.inj hc)
          · exact ih (num + 1)
        · split
          · exact ih (num + 1)
          · exact ih (num + 1)

theorem get_part_image_ok (d : Disk) (pnum : Nat) (pp : PartedPart) (staged : List Nat)
    (hpp : d.partitions.find? (fun q => q.pnum = pnum) = some pp) :
    d.get_part_image pnum = .ok staged → staged = sliceBytes d.image pp.start pp.size := by
  intro hg
  have hif : d.get_part_image pnum =
      if acceptedFs d.fstypes pp.fstype then
        Except.ok (sliceBytes d.image pp.start pp.size)
      else Except.error (.wim (.unsupportedFstype pp.fstype)) := by
    unfold Disk.get_part_image
    rw [hpp]
  rw [hif] at hg
  split at hg
  · exact (Except.ok.inj hg).symm
  · exact absurd hg (by simp)

theorem copyLoop_mem (d : Disk) (env : WriteEnv) :
    ∀ (parts : List SfdiskPart) (num i : Nat) (p : SfdiskPart) (pp : PartedPart),
    (copyLoop d env num parts).err = none →
    parts[i]? = some p →
    d.partitions.find? (fun q => q.pnum = num + i) = some pp →
    p.size = ((pp.size / d.lsectorSize : Nat) : Int) →
    Action.copyBytes (p.start * d.lsectorSize) (sliceBytes d.image pp.start pp.size) ∈
      (copyLoop d env num parts).actions := by
  intro parts
  induction parts with
  | nil => intro num i p pp _ hp _ _; simp at hp
  | cons q rest ih =>
    intro num i p pp herr hp hpp hsz
    cases i with
    | zero =>
      simp only [List.getElem?_cons_zero, Option.some.injEq] at hp
      subst hp
      rw [Nat.add_zero] at hpp
      cases hg : d.get_part_image num with
      | error e =>
        simp only [copyLoop, hpp, if_pos hsz, hg] at herr
        simp at herr
      | ok staged =>
        have hstaged := get_part_image_ok d num pp staged hpp hg
        simp only [copyLoop, hpp, if_pos hsz, hg, hstaged]
        exact List.mem_cons_self _ _
    | succ j =>
      simp only [List.getElem?_cons_succ] at hp
      have harith : num + (j + 1) = (num + 1) + j := by omega
      rw [harith] at hpp
      cases hf : d.partitions.find? (fun r => r.pnum = num) with
      | none =>
        simp only [copyLoop, hf] at herr
        simp at herr
      | some qq =>
        by_cases hqsz : q.size = ((qq.size / d.lsectorSize : Nat) : Int)
        · cases hg : d.get_part_image num with
          | error e =>
            simp only [copyLoop, hf, if_pos hqsz, hg] at herr
            simp at herr
          | ok staged =>
            simp only [copyLoop, hf, if_pos hqsz, hg] at herr ⊢
            exact List.mem_cons_of_mem _ (ih (num + 1) j p pp herr hp hpp hsz)
        · by_cases hr : resizableFs qq.fstype
          · cases hb : resizeBranch d env num qq q with
            | error e =>
              simp only [copyLoop, hf, if_neg hqsz, if_pos hr, hb] at herr
              simp at herr
            | ok bytes =>
              simp only [copyLoop, hf, if_neg hqsz, if_pos hr, hb] at herr ⊢
              exact List.mem_cons_of_mem _ (ih (num + 1) j p pp herr hp hpp hsz)
          · by_cases ht : q.type ≠ "f"
            · simp only [copyLoop, hf, if_neg hqsz, if_neg hr, if_pos ht] at herr ⊢
              exact ih (num + 1) j p pp herr hp hpp hsz
            · simp only [copyLoop, hf, if_neg hqsz, if_neg hr, if_neg ht] at herr ⊢
              exact ih (num + 1) j p pp herr hp hpp hsz

/-! ## Claim theorems -/

/-- C1: for every source image, calling `write(target, expand)` with
`expand = None` (verbatim mode) performs exactly one action — a sparse copy
of the whole source image to offset 0 of the target, making the target
byte-identical to the source on the source's extent — with no
partition-table write and no per-partition processing. -/
theorem C1_verbatim_write (d : Disk) (env : WriteEnv) (t : Nat → Nat) :
    Disk.write d env none = ⟨[Action.copyBytes 0 d.image], [], none⟩ ∧
    ∀ a, a < d.image.length →
      applyActions t (Disk.write d env none).actions a = d.image.getD a 0 := by
  constructor
  · rfl
  · intro a ha
    simp [Disk.write, applyActions, applyAction, sparseCopyTo, ha]

theorem C1_verbatim_write_witness :
    1 < ([5, 6, 7] : List Nat).length ∧
    applyActions (fun _ => 99)
        (Disk.write ⟨[5, 6, 7], [], [], 1⟩ envTriv none).actions 1 =
      ([5, 6, 7] : List Nat).getD 1 0 :=
  ⟨by decide,
    (C1_verbatim_write ⟨[5, 6, 7], [], [], 1⟩ envTriv (fun _ => 99)).2 1 (by decide)⟩

/-- C5: in expand mode, the free-space figure used for distribution is the
queried unpartitioned-space sector count (the last matching `sfdisk -F`
line) rounded down to a 2048-sector boundary (`free - free % 2048`), and
`write` fails with the `InsufficientFreeSpace`-class error if and only if
the query produced no usable free-space figure. -/
theorem C5_free_space_query (d : Disk) (env : WriteEnv) (plan : List (Nat × Nat)) :
    ((Disk.write d env (some plan)).err =
        some (EngineErr.wim WimFail.insufficientFreeSpace) ↔
      lastFigure env.freeLines = none) ∧
    parseFree env.freeLines = (lastFigure env.freeLines).map (fun n => n - n % 2048) := by
  refine ⟨⟨?_, ?_⟩, parseFree_eq env.freeLines⟩
  · intro herr
    cases hl : lastFigure env.freeLines with
    | none => rfl
    | some n =>
      exfalso
      have hp : parseFree env.freeLines = some (n - n % 2048) := by
        rw [parseFree_eq, hl]
        rfl
      have hw : (Disk.write d env (some plan)).err =
          (copyLoop d env 1 env.finalDoc.partitions).err := by
        simp [Disk.write, hp]
      rw [hw] at herr
      exact copyLoop_err_ne_free d env _ 1 herr
  · intro hl
    have hp : parseFree env.freeLines = none := by
      rw [parseFree_eq, hl]
      rfl
    simp [Disk.write, hp]

theorem C5_free_space_query_witness :
    ((Disk.write dExtOk envExtOk (some [])).err =
        some (EngineErr.wim WimFail.insufficientFreeSpace) ↔
      lastFigure envExtOk.freeLines = none) ∧
    parseFree envExtOk.freeLines =
      (lastFigure envExtOk.freeLines).map (fun n => n - n % 2048) :=
  C5_free_space_query dExtOk envExtOk []

/-- C3: in expand mode, when N partitions are auto-marked and the (possibly
negative-adjusted) pool holds P sectors, every auto-marked partition's size
grows by exactly the Python floor quotient `P // N`, and the undistributed
remainder `P - N * (P // N)` lies between 0 and `N - 1`. -/
theorem C3_auto_distribution (lsec : Nat) (plan : List (Nat × Nat))
    (parts : List SfdiskPart) (free0 : Int) (i : Nat) (p0 : SfdiskPart)
    (out : PlanOut)
    (hout : out = planLoop lsec plan 1 parts free0 [] 0)
    (hp : parts[i]? = some p0)
    (hplan : List.lookup (1 + i) plan = none)
    (htype : p0.type ≠ "f") :
    List.lookup (1 + i) out.sizes = some (-1) ∧
    0 < out.numAuto ∧
    (distributeLoop out.free out.numAuto out.sizes 1 out.parts)[i]? =
      some { p0 with size := p0.size + Int.fdiv out.free (out.numAuto : Int) } ∧
    0 ≤ out.free - (out.numAuto : Int) * Int.fdiv out.free (out.numAuto : Int) ∧
    out.free - (out.numAuto : Int) * Int.fdiv out.free (out.numAuto : Int) ≤
      (out.numAuto : Int) - 1 := by
  subst hout
  have hmark : List.lookup (1 + i) (planLoop lsec plan 1 parts free0 [] 0).sizes =
      some (-1) := by
    rw [planLoop_sizes_get lsec plan parts 1 free0 [] 0 i p0 hp]
    simp [hplan, htype]
  have hpos : 0 < (planLoop lsec plan 1 parts free0 [] 0).numAuto := by
    rw [planLoop_numAuto]
    have := specAutoCount_pos plan parts 1 i p0 hp hplan htype
    omega
  have hparts : (planLoop lsec plan 1 parts free0 [] 0).parts[i]? = some p0 := by
    rw [planLoop_parts_get]
    simp [hp, hplan]
  refine ⟨hmark, hpos, ?_, ?_, ?_⟩
  · rw [distributeLoop_get]
    simp [hparts, hmark]
  · have hN : (0 : Int) < ((planLoop lsec plan 1 parts free0 [] 0).numAuto : Int) := by
      exact_mod_cast hpos
    have hfd := Int.fdiv_add_fmod (planLoop lsec plan 1 parts free0 [] 0).free
      ((planLoop lsec plan 1 parts free0 [] 0).numAuto : Int)
    have h0 : 0 ≤ Int.fmod (planLoop lsec plan 1 parts free0 [] 0).free
        ((planLoop lsec plan 1 parts free0 [] 0).numAuto : Int) := by
      rw [Int.fmod_eq_emod _ (le_of_lt hN)]
      exact Int.emod_nonneg _ (by omega)
    omega
  · have hN : (0 : Int) < ((planLoop lsec plan 1 parts free0 [] 0).numAuto : Int) := by
      exact_mod_cast hpos
    have hfd := Int.fdiv_add_fmod (planLoop lsec plan 1 parts free0 [] 0).free
      ((planLoop lsec plan 1 parts free0 [] 0).numAuto : Int)
    have h1 := Int.fmod_lt_of_pos (planLoop lsec plan 1 parts free0 [] 0).free hN
    omega

theorem C3_auto_distribution_witness :
    ([p83a, p83b] : List SfdiskPart)[0]? = some p83a ∧
    List.lookup (1 + 0) ([] : List (Nat × Nat)) = none ∧
    p83a.type ≠ "f" ∧
    (List.lookup (1 + 0) (planLoop 1 [] 1 [p83a, p83b] 5 [] 0).sizes = some (-1) ∧
      0 < (planLoop 1 [] 1 [p83a, p83b] 5 [] 0).numAuto ∧
      (distributeLoop (planLoop 1 [] 1 [p83a, p83b] 5 [] 0).free
          (planLoop 1 [] 1 [p83a, p83b] 5 [] 0).numAuto
          (planLoop 1 [] 1 [p83a, p83b] 5 [] 0).sizes 1
          (planLoop 1 [] 1 [p83a, p83b] 5 [] 0).parts)[0]? =
        some { p83a with
          size := p83a.size + Int.fdiv (planLoop 1 [] 1 [p83a, p83b] 5 [] 0).free
            ((planLoop 1 [] 1 [p83a, p83b] 5 [] 0).numAuto : Int) } ∧
      0 ≤ (planLoop 1 [] 1 [p83a, p83b] 5 [] 0).free -
          ((planLoop 1 [] 1 [p83a, p83b] 5 [] 0).numAuto : Int) *
            Int.fdiv (planLoop 1 [] 1 [p83a, p83b] 5 [] 0).free
              ((planLoop 1 [] 1 [p83a, p83b] 5 [] 0).numAuto : Int) ∧
      (planLoop 1 [] 1 [p83a, p83b] 5 [] 0).free -
          ((planLoop 1 [] 1 [p83a, p83b] 5 [] 0).numAuto : Int) *
            Int.fdiv (planLoop 1 [] 1 [p83a, p83b] 5 [] 0).free
              ((planLoop 1 [] 1 [p83a, p83b] 5 [] 0).numAuto : Int) ≤
        ((planLoop 1 [] 1 [p83a, p83b] 5 [] 0).numAuto : Int) - 1) :=
  ⟨by decide, by decide, by decide,
    C3_auto_distribution 1 [] [p83a, p83b] 5 0 p83a _ rfl (by decide) (by decide) (by decide)⟩

/-- C4: in expand mode, for each partition in table order: a nonzero
explicit plan entry is converted to sectors (`bytes // lsector_size`) and
set as the partition's size and recorded in `sizes`; a zero entry leaves
the size untouched and the partition out of `sizes` entirely; a partition
with no entry whose type is not the container tag is marked `-1`
(auto-resize).  The pool equals the initial pool minus the deltas of the
nonzero explicit entries only, and the auto-resize count counts exactly the
auto-marked partitions. -/
theorem C4_plan_rules (lsec : Nat) (plan : List (Nat × Nat)) (parts : List SfdiskPart)
    (free0 : Int) (i : Nat) (p0 : SfdiskPart) (out : PlanOut)
    (hout : out = planLoop lsec plan 1 parts free0 [] 0)
    (hp : parts[i]? = some p0) :
    (∀ v, List.lookup (1 + i) plan = some v → v ≠ 0 →
      out.parts[i]? = some { p0 with size := ((v / lsec : Nat) : Int) } ∧
      List.lookup (1 + i) out.sizes = some ((v / lsec : Nat) : Int)) ∧
    (List.lookup (1 + i) plan = some 0 →
      out.parts[i]? = some p0 ∧ List.lookup (1 + i) out.sizes = none) ∧
    (List.lookup (1 + i) plan = none → p0.type ≠ "f" →
      out.parts[i]? = some p0 ∧ List.lookup (1 + i) out.sizes = some (-1)) ∧
    out.free = specPoolAfter lsec plan 1 parts free0 ∧
    out.numAuto = specAutoCount plan 1 parts := by
  subst hout
  refine ⟨?_, ?_, ?_, planLoop_free lsec plan parts 1 free0 [] 0, ?_⟩
  · intro v hv hv0
    constructor
    · rw [planLoop_parts_get]
      simp [hp, hv, hv0]
    · rw [planLoop_sizes_get lsec plan parts 1 free0 [] 0 i p0 hp]
      simp [hv, hv0]
  · intro hv
    constructor
    · rw [planLoop_parts_get]
      simp [hp, hv]
    · rw [planLoop_sizes_get lsec plan parts 1 free0 [] 0 i p0 hp]
      simp [hv]
  · intro hv ht
    constructor
    · rw [planLoop_parts_get]
      simp [hp, hv]
    · rw [planLoop_sizes_get lsec plan parts 1 free0 [] 0 i p0 hp]
      simp [hv, ht]
  · rw [planLoop_numAuto]
    simp

theorem C4_plan_rules_witness :
    (([pExp, pZero, pAuto, pCont] : List SfdiskPart)[0]? = some pExp ∧
      List.lookup (1 + 0) [(1, 8), (2, 0)] = some 8 ∧ (8 : Nat) ≠ 0 ∧
      (planLoop 4 [(1, 8), (2, 0)] 1 [pExp, pZero, pAuto, pCont] 10 [] 0).parts[0]? =
        some { pExp with size := ((8 / 4 : Nat) : Int) } ∧
      List.lookup (1 + 0)
          (planLoop 4 [(1, 8), (2, 0)] 1 [pExp, pZero, pAuto, pCont] 10 [] 0).sizes =
        some ((8 / 4 : Nat) : Int)) ∧
    (([pExp, pZero, pAuto, pCont] : List SfdiskPart)[1]? = some pZero ∧
      List.lookup (1 + 1) [(1, 8), (2, 0)] = some 0 ∧
      (planLoop 4 [(1, 8), (2, 0)] 1 [pExp, pZero, pAuto, pCont] 10 [] 0).parts[1]? =
        some pZero ∧
      List.lookup (1 + 1)
          (planLoop 4 [(1, 8), (2, 0)] 1 [pExp, pZero, pAuto, pCont] 10 [] 0).sizes =
        none) ∧
    (([pExp, pZero, pAuto, pCont] : List SfdiskPart)[2]? = some pAuto ∧
      List.lookup (1 + 2) [(1, 8), (2, 0)] = none ∧ pAuto.type ≠ "f" ∧
      (planLoop 4 [(1, 8), (2, 0)] 1 [pExp, pZero, pAuto, pCont] 10 [] 0).parts[2]? =
        some pAuto ∧
      List.lookup (1 + 2)
          (planLoop 4 [(1, 8), (2, 0)] 1 [pExp, pZero, pAuto, pCont] 10 [] 0).sizes =
        some (-1)) ∧
    (planLoop 4 [(1, 8), (2, 0)] 1 [pExp, pZero, pAuto, pCont] 10 [] 0).free =
      specPoolAfter 4 [(1, 8), (2, 0)] 1 [pExp, pZero, pAuto, pCont] 10 ∧
    (planLoop 4 [(1, 8), (2, 0)] 1 [pExp, pZero, pAuto, pCont] 10 [] 0).numAuto =
      specAutoCount [(1, 8), (2, 0)] 1 [pExp, pZero, pAuto, pCont] :=
  ⟨⟨by decide, by decide, by decide,
      (C4_plan_rules 4 [(1, 8), (2, 0)] [pExp, pZero, pAuto, pCont] 10 0 pExp _ rfl
        (by decide)).1 8 (by decide) (by decide)⟩,
    ⟨by decide, by decide,
      (C4_plan_rules 4 [(1, 8), (2, 0)] [pExp, pZero, pAuto, pCont] 10 1 pZero _ rfl
        (by decide)).2.1 (by decide)⟩,
    ⟨by decide, by decide, by decide,
      (C4_plan_rules 4 [(1, 8), (2, 0)] [pExp, pZero, pAuto, pCont] 10 2 pAuto _ rfl
        (by decide)).2.2.1 (by decide) (by decide)⟩,
    (C4_plan_rules 4 [(1, 8), (2, 0)] [pExp, pZero, pAuto, pCont] 10 0 pExp _ rfl
      (by decide)).2.2.2.1,
    (C4_plan_rules 4 [(1, 8), (2, 0)] [pExp, pZero, pAuto, pCont] 10 0 pExp _ rfl
      (by decide)).2.2.2.2⟩

/-- C6: partitions whose type tag marks a table container (`'f'`) are never
marked auto-resize by the expand loop, and the serialized sfdisk script
line for a container-type entry never carries a `size` field, for every
expand plan and table document. -/
theorem C6_container_exempt (lsec : Nat) (plan : List (Nat × Nat))
    (parts : List SfdiskPart) (free0 : Int) (num : Nat) (doc : SfdiskDoc)
    (i : Nat) (p : SfdiskPart) :
    (List.lookup num (planLoop lsec plan 1 parts free0 [] 0).sizes = some (-1) →
      ∃ q, parts[num - 1]? = some q ∧ q.type ≠ "f") ∧
    (doc.partitions[i]? = some p →
      (write_sfdisk_script doc).lines[i]? = some ⟨scriptPartFields p, p.bootable⟩) ∧
    (p.type = "f" → "size" ∉ (scriptPartFields p).map Prod.fst) := by
  refine ⟨?_, ?_, ?_⟩
  · intro hmark
    by_cases h1 : 1 ≤ num
    · by_cases h2 : num ≤ parts.length
      · have hlt : num - 1 < parts.length := by omega
        obtain ⟨q, hq⟩ : ∃ q, parts[num - 1]? = some q := by
          cases hgq : parts[num - 1]? with
          | none =>
            rw [List.getElem?_eq_none_iff] at hgq
            omega
          | some q => exact ⟨q, rfl⟩
        refine ⟨q, hq, ?_⟩
        have hnum : 1 + (num - 1) = num := by omega
        have := planLoop_sizes_get lsec plan parts 1 free0 [] 0 (num - 1) _ hq
        rw [hnum] at this
        rw [this] at hmark
        intro hf
        cases hv : List.lookup num plan with
        | some v =>
          simp only [hv] at hmark
          by_cases hv0 : v ≠ 0
          · rw [if_pos hv0] at hmark
            have hcast := Option.some.inj hmark
            have h0 : (0 : Int) ≤ ((v / lsec : Nat) : Int) := Int.natCast_nonneg _
            omega
          · rw [if_neg hv0] at hmark
            simp at hmark
        | none =>
          simp only [hv] at hmark
          rw [if_neg (by simp [hf])] at hmark
          simp at hmark
      · exfalso
        rw [planLoop_sizes_ge lsec plan parts 1 free0 [] 0 num (by omega)] at hmark
        simp at hmark
    · exfalso
      rw [planLoop_sizes_lt lsec plan parts 1 free0 [] 0 num (by omega)] at hmark
      simp at hmark
  · intro hp
    simp [write_sfdisk_script, hp]
  · intro ht
    simp only [scriptPartFields, partFieldVal, ht, List.filterMap_cons, List.filterMap_nil]
    norm_num
    rcases truthyStr p.attrs with _ | a <;> rcases truthyStr p.name with _ | b <;>
      rcases truthyStr p.uuid with _ | c <;> simp

theorem C6_container_exempt_witness :
    (List.lookup 1 (planLoop 1 [] 1 [pAuto] 0 [] 0).sizes = some (-1) ∧
      (∃ q, ([pAuto] : List SfdiskPart)[1 - 1]? = some q ∧ q.type ≠ "f")) ∧
    (docCont.partitions[0]? = some pCont ∧
      (write_sfdisk_script docCont).lines[0]? =
        some ⟨scriptPartFields pCont, pCont.bootable⟩) ∧
    (pCont.type = "f" ∧ "size" ∉ (scriptPartFields pCont).map Prod.fst) :=
  ⟨⟨by decide,
      (C6_container_exempt 1 [] [pAuto] 0 1 docCont 0 pCont).1 (by decide)⟩,
    ⟨by decide,
      (C6_container_exempt 1 [] [pAuto] 0 1 docCont 0 pCont).2.1 (by decide)⟩,
    ⟨by decide,
      (C6_container_exempt 1 [] [pAuto] 0 1 docCont 0 pCont).2.2 (by decide)⟩⟩

/-- C2 counterexample: `dBtrfs` has one partition whose finalized size (read
back from the target) equals its source size in sectors, yet its fstype is
`btrfs`; the run performs no partition copy at all (only the boot-sector
copy and the two table writes) and aborts with the unsupported-fstype
error, refuting "regardless of the partition's filesystem type". -/
theorem C2_counterexample :
    Disk.write dBtrfs envBtrfs (some []) =
      ⟨[Action.copyBytes 0 [0, 1, 2, 3, 4, 5, 6, 7],
        Action.writeTable ⟨[], []⟩, Action.writeTable ⟨[], []⟩], [],
        some (EngineErr.wim (WimFail.unsupportedFstype "btrfs"))⟩ := by
  rfl

/-- C2 (amended): in expand mode, for every partition whose finalized size
(re-read from the target's table) equals the source partition's size in
logical sectors, a write that raised no error bulk-copied that partition's
original bytes verbatim to the partition's new start offset — for any
accepted filesystem type (staging the partition must succeed; a type
outside the accepted set aborts the write instead). -/
theorem C2_unchanged_copy (d : Disk) (env : WriteEnv) (plan : List (Nat × Nat))
    (i : Nat) (p : SfdiskPart) (pp : PartedPart)
    (herr : (Disk.write d env (some plan)).err = none)
    (hp : env.finalDoc.partitions[i]? = some p)
    (hpp : d.partitions.find? (fun q => q.pnum = 1 + i) = some pp)
    (hsz : p.size = ((pp.size / d.lsectorSize : Nat) : Int)) :
    Action.copyBytes (p.start * d.lsectorSize) (sliceBytes d.image pp.start pp.size) ∈
      (Disk.write d env (some plan)).actions := by
  cases hl : parseFree env.freeLines with
  | none => simp [Disk.write, hl] at herr
  | some free =>
    have herr2 : (copyLoop d env 1 env.finalDoc.partitions).err = none := by
      simpa [Disk.write, hl] using herr
    have hmem := copyLoop_mem d env env.finalDoc.partitions 1 i p pp herr2 hp hpp hsz
    simp [Disk.write, hl, hmem]

theorem C2_unchanged_copy_witness :
    (Disk.write dExtOk envExtOk (some [])).err = none ∧
    envExtOk.finalDoc.partitions[0]? = some ⟨none, none, 2, 2, "83", none, false⟩ ∧
    dExtOk.partitions.find? (fun q => q.pnum = 1 + 0) = some ⟨1, 2, 3, 2, "ext4"⟩ ∧
    Action.copyBytes (2 * dExtOk.lsectorSize) (sliceBytes dExtOk.image 2 2) ∈
      (Disk.write dExtOk envExtOk (some [])).actions :=
  ⟨by rfl, by rfl, by rfl,
    C2_unchanged_copy dExtOk envExtOk [] 0 ⟨none, none, 2, 2, "83", none, false⟩
      ⟨1, 2, 3, 2, "ext4"⟩ (by rfl) (by rfl) (by rfl) (by decide)⟩

/-- C7 counterexample: the file operations (`wim_ls` of a partition,
`wim_cp`, `wim_rm`) construct `Disk` with the default accepted set
`('fat', 'ext')`, so staging a linux-swap partition — although it belongs
to the FAT/ext/swap families the claim names — fails with the
unsupported-fstype error, and staging a `btrfs` partition (recognised by
the table parser) fails as well, refuting "read-only listing admits
everything the table parser recognizes". -/
theorem C7_counterexample :
    Disk.get_part_image dSwapDefault 1 =
      .error (EngineErr.wim (WimFail.unsupportedFstype "linux-swap(v1)")) ∧
    strStarts "linux-swap(v1)" "linux-swap" = true ∧
    Disk.get_part_image dBtrfsDefault 1 =
      .error (EngineErr.wim (WimFail.unsupportedFstype "btrfs")) := by
  refine ⟨by rfl, by decide, by rfl⟩

/-- C7 (amended): staging fails with the `PartitionNotFound`-class error
when `pnum` is absent from the table and with the `UnsupportedFilesystem`-
class error when the partition's filesystem-type prefix is not in the
configured accepted set; the accepted set is `('fat', 'ext')` for listing
and for the read/write file operations (the `Disk` default), and
`('fat', 'ext', 'linux-swap')` for image writing. -/
theorem C7_stage_error_taxonomy (d : Disk) (pnum : Nat) (pp : PartedPart) :
    (d.partitions.find? (fun q => q.pnum = pnum) = none →
      d.get_part_image pnum = .error (EngineErr.wim (WimFail.partitionNotFound pnum))) ∧
    (d.partitions.find? (fun q => q.pnum = pnum) = some pp →
      acceptedFs d.fstypes pp.fstype = false →
      d.get_part_image pnum = .error (EngineErr.wim (WimFail.unsupportedFstype pp.fstype))) ∧
    defaultFstypes = ["fat", "ext"] ∧
    wimWriteFstypes = ["fat", "ext", "linux-swap"] := by
  refine ⟨?_, ?_, rfl, rfl⟩
  · intro h
    unfold Disk.get_part_image
    rw [h]
  · intro h ha
    unfold Disk.get_part_image
    rw [h]
    simp [ha]

theorem C7_stage_error_taxonomy_witness :
    (dSwapDefault.partitions.find? (fun q => q.pnum = 2) = none ∧
      Disk.get_part_image dSwapDefault 2 =
        .error (EngineErr.wim (WimFail.partitionNotFound 2))) ∧
    (dSwapDefault.partitions.find? (fun q => q.pnum = 1) =
        some ⟨1, 0, 3, 4, "linux-swap(v1)"⟩ ∧
      acceptedFs dSwapDefault.fstypes "linux-swap(v1)" = false ∧
      Disk.get_part_image dSwapDefault 1 =
        .error (EngineErr.wim (WimFail.unsupportedFstype "linux-swap(v1)"))) :=
  ⟨⟨by rfl,
      (C7_stage_error_taxonomy dSwapDefault 2 ⟨1, 0, 3, 4, "linux-swap(v1)"⟩).1 (by rfl)⟩,
    ⟨by rfl, by decide,
      (C7_stage_error_taxonomy dSwapDefault 1 ⟨1, 0, 3, 4, "linux-swap(v1)"⟩).2.1
        (by rfl) (by decide)⟩⟩

/-- C9: when a linux-swap partition's size changed in expand mode the engine
probes the staged original with `blkid` and slices the UUID out around
`out.index('UUID="')`.  When the probe output carries no `UUID="` marker,
Python raises an uncaught `ValueError` — a crash outside the engine's
`WimError` taxonomy — although a missing label is handled and a probe
output with a UUID completes the run; the claim (and the spec's "preserving
label and UUID if present") describes the evident intent, so this is a code
bug. -/
theorem C9_swap_probe_crash :
    strIndex "/tmp/p1: TYPE=\"swap\"" "UUID=\"" = none ∧
    (Disk.write dSwapResize envSwapNoUuid (some [])).err =
      some (EngineErr.python PyErr.valueError) ∧
    (Disk.write dSwapResize envSwapUuid (some [])).err = none := by
  refine ⟨by rfl, by rfl, by rfl⟩

/-- C10: for every copy or remove operation on partition `pnum`, the only
bytes of the full image that may differ afterwards lie in
`[start, start + size)` of partition `pnum` as recorded in the table —
bytes of every other partition and every unpartitioned region are unchanged
— because the flush-back writes the staging file (whose length stays within
the partition's size) only at partition `pnum`'s start offset, and a failed
operation raises before flushing at all. -/
theorem C10_flush_frame (d : Disk) (pnum : Nat) (pp : PartedPart)
    (stagedAfter : List Nat) (tr : Nat → List String) (fuel : Nat) (path : String)
    (recursive : Bool) (mdelRes mdeltreeRes : ToolRes) (a : Nat)
    (hpp : d.partitions.find? (fun q => q.pnum = pnum) = some pp)
    (hlen : stagedAfter.length ≤ pp.size)
    (ha : a < pp.start ∨ pp.start + pp.size ≤ a) :
    (d.copyOp pnum stagedAfter).1 a = imageByte d a ∧
    (d.removeOp pnum tr fuel path recursive mdelRes mdeltreeRes stagedAfter).1 a =
      imageByte d a := by
  have hout : ¬(pp.start ≤ a ∧ a < pp.start + stagedAfter.length) := by omega
  constructor
  · unfold Disk.copyOp
    rw [hpp]
    cases hg : d.get_part_image pnum with
    | error e => rfl
    | ok staged => simp [putPartImage, sparseCopyTo, hout]
  · unfold Disk.removeOp
    cases hg : d.get_part_image pnum with
    | error e => rfl
    | ok staged =>
      rw [hpp]
      by_cases hext : strStarts pp.fstype "ext"
      · simp only [hext, if_true]
        cases remove_ext tr fuel 0 path recursive with
        | error e => rfl
        | ok _ => simp [putPartImage, sparseCopyTo, hout]
      · cases mdelRes with
        | ok => simp [hext, putPartImage, sparseCopyTo, hout]
        | fail msg =>
          by_cases hm : (strContains msg "not found" || strContains msg "non empty") = true
          · cases mdeltreeRes with
            | ok => simp [hext, hm, putPartImage, sparseCopyTo, hout]
            | fail m => simp [hext, hm]
          · simp only [Bool.not_eq_true] at hm
            simp [hext, hm]

theorem C10_flush_frame_witness :
    (dExtRm.partitions.find? (fun q => q.pnum = 1) = some ⟨1, 0, 3, 4, "ext4"⟩ ∧
      ([7, 7] : List Nat).length ≤ 4 ∧ (0 + 4 ≤ 5 ∨ (5 : Nat) < 0)) ∧
    (dExtRm.copyOp 1 [7, 7]).1 5 = imageByte dExtRm 5 ∧
    (dExtRm.removeOp 1 trScenA 10 "/d" true ToolRes.ok ToolRes.ok [7, 7]).1 5 =
      imageByte dExtRm 5 :=
  ⟨⟨by rfl, by decide, by decide⟩,
    C10_flush_frame dExtRm 1 ⟨1, 0, 3, 4, "ext4"⟩ [7, 7] trScenA 10 "/d" true
      ToolRes.ok ToolRes.ok 5 (by rfl) (by decide) (by right; decide)⟩

/-- C8 counterexample: the non-recursive remove of a non-empty directory
(`trScenA`, `recursive = false`) and a recursive remove whose recursion
emptied the directory but whose final `debugfs rmdir` still reports it
non-empty (`trScenB`, `recursive = true`) raise the IDENTICAL error value —
the single "directory not empty" raise whose message instructs passing
`-r` — so the two failures the claim calls distinct are not distinct in the
code. -/
theorem C8_counterexample :
    remove_ext trScenA 10 0 "d" false =
      .error (EngineErr.wim (WimFail.dirNotEmptyUseR "rmdir: directory not empty")) ∧
    remove_ext trScenB 10 0 "d" true =
      .error (EngineErr.wim (WimFail.dirNotEmptyUseR "rmdir: directory not empty")) := by
  constructor
  · simp [trScenA, remove_ext, rmLines, dirCase, rmdirCheck, collapsePath,
      collapseSlashes, strStarts, strContains, containsSub]
  · simp [trScenB, remove_ext, rmLines, dirCase, rmdirCheck, recurseStep, entsLoop,
      entryName, splitAll, splitOnceAt, collapsePath, collapseSlashes, strStarts,
      strContains, containsSub]

/-- C8 (amended): `remove` on a non-empty ext-family directory with
`recursive = false` fails with the directory-not-empty error whose message
instructs the caller to pass the recursive flag, performs no flush-back,
and leaves the full image unchanged; this is the same raise (same error,
same message) as the one hit when a recursive removal's final directory
delete still reports non-empty — the code does not distinguish the two
cases (and an empty directory is removed even without the flag, since the
rmdir attempt is made in both cases). -/
theorem C8_nonrecursive_nonempty (d : Disk) (pnum : Nat) (pp : PartedPart)
    (tr : Nat → List String) (f : Nat) (path rmLine rl : String) (rest : List String)
    (mdelRes mdeltreeRes : ToolRes) (stagedAfter : List Nat)
    (hpp : d.partitions.find? (fun q => q.pnum = pnum) = some pp)
    (hacc : acceptedFs d.fstypes pp.fstype = true)
    (hext : strStarts pp.fstype "ext" = true)
    (h0 : tr 0 = [rmLine])
    (hrm : strStarts rmLine "rm:" = true)
    (hdir : strContains rmLine "file is a directory" = true)
    (h1 : tr 1 = rl :: rest)
    (hne : strContains rl "directory not empty" = true) :
    d.removeOp pnum tr (f + 3) path false mdelRes mdeltreeRes stagedAfter =
      (imageByte d, some (EngineErr.wim (WimFail.dirNotEmptyUseR rl))) := by
  have hrun : remove_ext tr (f + 3) 0 path false =
      .error (EngineErr.wim (WimFail.dirNotEmptyUseR rl)) := by
    simp [remove_ext, rmLines, dirCase, rmdirCheck, h0, h1, hrm, hdir, hne]
  have hok : d.get_part_image pnum =
      .ok (sliceBytes d.image pp.start pp.size) := by
    unfold Disk.get_part_image
    rw [hpp]
    simp [hacc]
  unfold Disk.removeOp
  rw [hok, hpp]
  simp [hext, hrun]

theorem C8_nonrecursive_nonempty_witness :
    (dExtRm.partitions.find? (fun q => q.pnum = 1) = some ⟨1, 0, 3, 4, "ext4"⟩ ∧
      acceptedFs dExtRm.fstypes "ext4" = true ∧
      strStarts "ext4" "ext" = true ∧
      trScenA 0 = ["rm: file is a directory"] ∧
      strStarts "rm: file is a directory" "rm:" = true ∧
      strContains "rm: file is a directory" "file is a directory" = true ∧
      trScenA 1 = ["rmdir: directory not empty"] ∧
      strContains "rmdir: directory not empty" "directory not empty" = true) ∧
    dExtRm.removeOp 1 trScenA (7 + 3) "/d" false ToolRes.ok ToolRes.ok [7, 7] =
      (imageByte dExtRm,
        some (EngineErr.wim (WimFail.dirNotEmptyUseR "rmdir: directory not empty"))) :=
  ⟨⟨by rfl, by decide, by decide, by rfl, by decide, by decide, by rfl, by decide⟩,
    C8_nonrecursive_nonempty dExtRm 1 ⟨1, 0, 3, 4, "ext4"⟩ trScenA 7 "/d"
      "rm: file is a directory" "rmdir: directory not empty" [] ToolRes.ok ToolRes.ok
      [7, 7] (by rfl) (by decide) (by decide) (by rfl) (by decide) (by decide)
      (by rfl) (by decide)⟩

end Wim
